import Mathlib

/-!
Shallow embedding of the PDF table-extraction core of this repository:
backend/core/pdf_processor.py (PDFTableExtractor), backend/core/ocr_service.py
(OCRService), and the alternative processor backend/app/core/pdf_processor.py
(its _limited_extract loop).

Modelling conventions: Python floats are exact rationals; a pandas DataFrame
is a column count together with the list of data rows (the header row lives in
the column labels and is not part of the data); the external PDF / OCR
libraries and wall-clock time are an explicit environment of call outcomes and
durations; Python exceptions are Except values.
-/

/-- A pandas cell as produced by the extraction strategies: missing
(None / NaN), a string, or a number. -/
inductive Cell where
  | null : Cell
  | str : String → Cell
  | num : ℚ → Cell
deriving DecidableEq

/-- Is the cell missing (NA for pandas count / dropna)? -/
def Cell.isNull : Cell → Bool
  | .null => true
  | _ => false

/-- Does the cell belong to a numeric dtype column (numbers and NaN only)? -/
def Cell.isNumOrNull : Cell → Bool
  | .num _ => true
  | .null => true
  | _ => false

/-- Python type(val).__name__ for a cell value. -/
def Cell.typeName : Cell → String
  | .null => "NoneType"
  | .str _ => "str"
  | .num _ => "float"

/-- A pandas DataFrame: column count plus data rows. -/
structure Frame where
  ncols : ℕ
  rows : List (List Cell)
deriving DecidableEq

/-- df.shape[0]. -/
def Frame.nrows (f : Frame) : ℕ := f.rows.length

/-- df.count().sum(): the number of non-NA cells. -/
def Frame.nonEmptyCells (f : Frame) : ℕ :=
  (f.rows.map (fun r => r.countP (fun c => !c.isNull))).sum

/-- df[col]: the cells of column j. -/
def Frame.col (f : Frame) (j : ℕ) : List Cell :=
  f.rows.filterMap (fun r => r.get? j)

/-- df.empty: some axis has length zero. -/
def Frame.isEmptyFrame (f : Frame) : Bool :=
  f.rows.length = 0 || f.ncols = 0

/-- Python round to nearest integer, ties to even (banker's rounding). -/
def bankersRound (q : ℚ) : ℤ :=
  if q - Rat.floor q < 1/2 then Rat.floor q
  else if 1/2 < q - Rat.floor q then Rat.floor q + 1
  else if Rat.floor q % 2 = 0 then Rat.floor q else Rat.floor q + 1

/-- Python round(x, 3). -/
def round3 (q : ℚ) : ℚ := (bankersRound (q * 1000) : ℚ) / 1000

/-- Python min(a, b) on two floats (first argument on ties). -/
def pymin (a b : ℚ) : ℚ := if a ≤ b then a else b

/-- Completeness: non_empty_cells / total_cells (the 70%-weight base term of
_calculate_confidence). -/
def completenessTerm (df : Frame) : ℚ :=
  (df.nonEmptyCells : ℚ) / ((df.nrows * df.ncols : ℕ) : ℚ)

/-- Structure quality bonus of _calculate_confidence. -/
def structureScoreTerm (df : Frame) : ℚ :=
  (if 3 ≤ df.nrows ∧ 2 ≤ df.ncols then 0.1 else 0) +
    (if 5 ≤ df.nrows ∧ 3 ≤ df.ncols then 0.05 else 0)

/-- len(df.drop_duplicates()) / len(df), guarded as in the source. -/
def uniquenessTerm (df : Frame) : ℚ :=
  if 0 < df.nrows then (df.rows.dedup.length : ℚ) / (df.nrows : ℚ) else 0

/-- Data variety bonus: min(uniqueness * 0.08, 0.08). -/
def varietyBonusTerm (df : Frame) : ℚ :=
  pymin (uniquenessTerm df * 0.08) 0.08

/-- df.select_dtypes(include=['number']).shape[1]: columns whose cells are all
numbers or NaN. -/
def numericColsCount (df : Frame) : ℕ :=
  (List.range df.ncols).countP (fun j => (df.col j).all Cell.isNumOrNull)

/-- Numeric content bonus of _calculate_confidence. -/
def numericBonusTerm (df : Frame) : ℚ :=
  if 0 < numericColsCount df then
    pymin ((numericColsCount df : ℚ) / (df.ncols : ℚ) * 0.05) 0.05
  else 0

/-- Header detection bonus: 0.03 when at least 70% of the first data row are
non-empty strings. -/
def headerBonusTerm (df : Frame) : ℚ :=
  match df.rows.head? with
  | none => 0
  | some firstRow =>
    let stringCount := firstRow.countP (fun c =>
      match c with
      | .str s => !s.isEmpty
      | _ => false)
    if (firstRow.length : ℚ) * 0.7 ≤ (stringCount : ℚ) then 0.03 else 0

/-- Columns whose non-null cells span at most two Python type names. -/
def consistentColsCount (df : Frame) : ℕ :=
  (List.range df.ncols).countP (fun j =>
    let colData := (df.col j).filter (fun c => !c.isNull)
    !colData.isEmpty && (colData.map Cell.typeName).dedup.length ≤ 2)

/-- Column alignment bonus of _calculate_confidence. -/
def alignmentBonusTerm (df : Frame) : ℚ :=
  pymin ((consistentColsCount df : ℚ) / (df.ncols : ℚ) * 0.04) 0.04

/-- PDFTableExtractor._calculate_confidence (backend/core/pdf_processor.py):
weighted-sum confidence for an extracted DataFrame, capped at 1.0 and rounded
to three decimals; a frame with no cells scores 0 at once.  The except-all
handler of the source (return 0.5) is unreachable in this total model. -/
def calculateConfidence (df : Frame) : ℚ :=
  if df.nrows * df.ncols = 0 then 0
  else
    round3 (pymin
      (completenessTerm df * 0.7 + structureScoreTerm df + varietyBonusTerm df +
        numericBonusTerm df + headerBonusTerm df + alignmentBonusTerm df) 1)

/-- Length of the leading run of characters satisfying p. -/
def leadingCount (p : Char → Bool) (cs : List Char) : ℕ := (cs.takeWhile p).length

/-- Character class [\d,] of the numeric-token pattern. -/
def isDigitOrComma (c : Char) : Bool := c.isDigit || c = ','

/-- Length matched by the regex tail \.?\d* (greedy). -/
def numTailLen : List Char → ℕ
  | '.' :: rest => 1 + leadingCount Char.isDigit rest
  | _ => 0

/-- Length of the match of \$?[\d,]+\.?\d* at the head of cs, if any
(a lone dollar sign fails after backtracking over the optional \$?). -/
def matchNumLen (cs : List Char) : Option ℕ :=
  match cs with
  | '$' :: rest =>
    let k := leadingCount isDigitOrComma rest
    if k = 0 then none else some (1 + k + numTailLen (rest.drop k))
  | _ =>
    let k := leadingCount isDigitOrComma cs
    if k = 0 then none else some (k + numTailLen (cs.drop k))

/-- re.findall: count non-overlapping matches scanning left to right; the
fuel argument (instantiated with the list length) bounds the recursion. -/
def countNumsAux : ℕ → List Char → ℕ
  | 0, _ => 0
  | _, [] => 0
  | fuel + 1, c :: rest =>
    match matchNumLen (c :: rest) with
    | none => countNumsAux fuel rest
    | some l => 1 + countNumsAux fuel ((c :: rest).drop l)

/-- len(re.findall(r'\$?[\d,]+\.?\d*', s)). -/
def countNums (s : String) : ℕ := countNumsAux s.length s.toList

/-- s.count(c) for a single character. -/
def countOcc (s : String) (c : Char) : ℕ := s.toList.count c

/-- PDFTableExtractor._select_optimal_method: first-page analysis choosing
the method to try first; pdfplumber for an empty document or on any internal
error.  The document read is the list of page texts (extract_text() or ""),
or an exception. -/
def selectOptimalMethod : Except String (List String) → String
  | .error _ => "pdfplumber"
  | .ok pages =>
    match pages with
    | [] => "pdfplumber"
    | pageText :: _ =>
      let tabChars := countOcc pageText '\t' + countOcc pageText '|'
      if 20 < tabChars then "camelot"
      else if 50 < countNums pageText then "tabula"
      else "pdfplumber"

/-- OCRService.is_scanned_pdf: judged scanned when the average stripped text
length over the first min(3, n) pages is below 50 characters; any internal
error also yields true.  The read is the list of page texts from pypdf, or an
exception. -/
def isScannedPdf : Except String (List String) → Bool
  | .error _ => true
  | .ok pages =>
    let pagesToCheck := min 3 pages.length
    let textLength := ((pages.take pagesToCheck).map (fun t => t.trim.length)).sum
    let avgTextPerPage : ℚ :=
      if 0 < pagesToCheck then (textLength : ℚ) / (pagesToCheck : ℚ) else 0
    avgTextPerPage < 50

/-- TableExtractionResult (backend/core/pdf_processor.py). -/
structure TableExtractionResult where
  tables : List Frame := []
  confidence_scores : List ℚ := []
  extraction_method : String := ""
  total_tables : ℕ := 0
  processing_time : ℚ := 0
  errors : List String := []
deriving DecidableEq

/-- One entry of the tables list returned by
OCRService.extract_tables_from_scanned_pdf; only its dataframe field is
consumed by the orchestrator. -/
structure OcrTable where
  dataframe : Option Frame
deriving DecidableEq

/-- The dict returned by OCRService.extract_tables_from_scanned_pdf, as
consumed by the orchestrator. -/
structure OcrResult where
  tables : List OcrTable
  processing_method : Option String
deriving DecidableEq

/-- Environment of external-call outcomes for one extract_tables run:
validator, document reads, the library strategies with their wall-clock
durations, the fallback pass, and the OCR service. -/
structure Env where
  validate : Except String Bool
  docRead : Except String (List String)
  strat : String → Except String (List Frame × List ℚ)
  dur : String → ℚ
  preTime : ℚ
  fallback : TableExtractionResult
  fallbackDur : ℚ
  scanRead : Except String (List String)
  ocr : Except String OcrResult
  ocrDur : ℚ

/-- Which external operations a run performed (for call-count properties). -/
structure Trace where
  invoked : List String
  fallbackInvoked : Bool
  ocrInvoked : Bool
deriving DecidableEq

/-- f"Processing timeout after 30s" appended when the budget is exceeded. -/
def timeoutNote : String := "Processing timeout after 30s"

/-- The upgrade note appended for free-tier callers with a scanned PDF. -/
def upsellNote : String :=
  "This appears to be a scanned PDF. OCR processing is available for paid users to extract tables from scanned documents."

/-- The generic note appended when nothing was extracted. -/
def noTablesNote : String :=
  "No tables found with any extraction method (including fallbacks)"

/-- self.confidence_threshold of the core extractor. -/
def confidenceThreshold : ℚ := 0.6

/-- self.max_processing_time of the core extractor (seconds). -/
def maxProcessingTime : ℚ := 30

/-- self.extraction_methods: the fixed default strategy order. -/
def extractionMethods : List String := ["pdfplumber", "camelot", "tabula"]

/-- Mean of a list of confidence scores (0 when empty, as 0/0 = 0 in ℚ). -/
def avgConf (c : List ℚ) : ℚ := c.sum / (c.length : ℚ)

/-- State of the primary method loop of extract_tables. -/
structure LoopState where
  res : TableExtractionResult
  elapsed : ℚ
  invoked : List String
  success : Bool
  timedOut : Bool
deriving DecidableEq

/-- The primary for-loop of extract_tables: timeout check at the top of each
iteration, then the strategy call; a strategy that throws appends
"method: msg" and continues; a result with nonempty tables and scores whose
mean clears the threshold is adopted and the loop breaks. -/
def runLoopFrom (env : Env) : LoopState → List String → LoopState
  | st, [] => st
  | st, m :: rest =>
    if maxProcessingTime < st.elapsed then
      { st with res.errors := st.res.errors ++ [timeoutNote], timedOut := true }
    else
      match env.strat m with
      | .error e =>
        runLoopFrom env
          { st with
            invoked := st.invoked ++ [m]
            elapsed := st.elapsed + env.dur m
            res := { st.res with errors := st.res.errors ++ [m ++ ": " ++ e] } } rest
      | .ok (tables, confidence) =>
        if tables ≠ [] ∧ confidence ≠ [] then
          if confidenceThreshold ≤ avgConf confidence then
            { st with
              invoked := st.invoked ++ [m]
              elapsed := st.elapsed + env.dur m
              res := { st.res with
                tables := tables
                confidence_scores := confidence
                extraction_method := m
                total_tables := tables.length }
              success := true }
          else
            runLoopFrom env
              { st with invoked := st.invoked ++ [m], elapsed := st.elapsed + env.dur m } rest
        else
          runLoopFrom env
            { st with invoked := st.invoked ++ [m], elapsed := st.elapsed + env.dur m } rest

/-- The OCR grids the orchestrator accepts: dataframes that are present and
not empty. -/
def acceptedGrids (r : OcrResult) : List Frame :=
  (r.tables.filterMap OcrTable.dataframe).filter (fun df => !df.isEmptyFrame)

/-- The final no-tables append of extract_tables. -/
def finishNoTables (res : TableExtractionResult) : TableExtractionResult :=
  if res.tables = [] then { res with errors := res.errors ++ [noTablesNote] } else res

/-- The tail of extract_tables after the primary loop: the fallback pass,
then OCR escalation for paid tiers or the upsell note for the free tier, then
the generic no-tables note; a successful OCR extraction returns early with
the fixed 0.7 confidence per accepted grid. -/
def postLoop (env : Env) (tier : String) (st : LoopState) : TableExtractionResult × Trace :=
  let res := { st.res with processing_time := st.elapsed }
  if res.tables ≠ [] then (res, ⟨st.invoked, false, false⟩)
  else if env.fallback.tables ≠ [] then
    ({ env.fallback with processing_time := st.elapsed + env.fallbackDur },
      ⟨st.invoked, true, false⟩)
  else if tier ≠ "free" then
    if isScannedPdf env.scanRead then
      match env.ocr with
      | .ok ocrResult =>
        if ocrResult.tables ≠ [] then
          if acceptedGrids ocrResult ≠ [] then
            ({ res with
                tables := acceptedGrids ocrResult,
                confidence_scores := (acceptedGrids ocrResult).map (fun _ => (0.7 : ℚ)),
                extraction_method := "OCR_" ++ ocrResult.processing_method.getD "tesseract",
                total_tables := (acceptedGrids ocrResult).length,
                processing_time := st.elapsed + env.fallbackDur + env.ocrDur },
              ⟨st.invoked, true, true⟩)
          else
            (finishNoTables { res with tables := [], confidence_scores := [] },
              ⟨st.invoked, true, true⟩)
        else (finishNoTables res, ⟨st.invoked, true, true⟩)
      | .error e =>
        (finishNoTables { res with errors := res.errors ++ ["OCR processing failed: " ++ e] },
          ⟨st.invoked, true, true⟩)
    else (finishNoTables res, ⟨st.invoked, true, false⟩)
  else
    if isScannedPdf env.scanRead then
      (finishNoTables { res with errors := res.errors ++ [upsellNote] },
        ⟨st.invoked, true, false⟩)
    else (finishNoTables res, ⟨st.invoked, true, false⟩)

/-- methods_to_try: the selected method first, then the remaining default
order without duplicates. -/
def methodsToTry (env : Env) : List String :=
  selectOptimalMethod env.docRead ::
    extractionMethods.filter (fun m => m ≠ selectOptimalMethod env.docRead)

/-- The initial loop state: a fresh result, the clock already advanced by
validation and method selection. -/
def initState (env : Env) : LoopState := ⟨{}, env.preTime, [], false, false⟩

/-- PDFTableExtractor.extract_tables (backend/core/pdf_processor.py):
validation, method selection, the primary loop, then the fallback / OCR tail;
the outer except-all converts any escaping exception into an
"Extraction failed" note, so the call always returns ok. -/
def extractTables (env : Env) (tier : String) :
    Except String (TableExtractionResult × Trace) :=
  .ok <|
    match env.validate with
    | .error e => ({ errors := ["Extraction failed: " ++ e] }, ⟨[], false, false⟩)
    | .ok false => ({ errors := ["PDF validation failed"] }, ⟨[], false, false⟩)
    | .ok true => postLoop env tier (runLoopFrom env (initState env) (methodsToTry env))

/-- Does method m clear the confidence bar in this environment: nonempty
tables and scores with mean at least the threshold? -/
def clearsB (env : Env) (m : String) : Bool :=
  match env.strat m with
  | .error _ => false
  | .ok (tables, confidence) =>
    !tables.isEmpty && !confidence.isEmpty &&
      decide (confidenceThreshold ≤ avgConf confidence)

/-- Per-method result dict of the alternative processor
(backend/app/core/pdf_processor.py): tables, mean confidence, method name. -/
structure MethodResult where
  tables : List Frame
  confidence : ℚ
  method : Option String
deriving DecidableEq

/-- Loop body of PDFTableExtractor._limited_extract
(backend/app/core/pdf_processor.py): keep the strictly better result seen so
far, break once one meets the threshold, skip methods that throw. -/
def limitedGo (threshold : ℚ) :
    List (Except String MethodResult) → MethodResult → MethodResult
  | [], best => best
  | o :: rest, best =>
    match o with
    | .error _ => limitedGo threshold rest best
    | .ok r =>
      let best1 := if best.confidence < r.confidence then r else best
      if threshold ≤ r.confidence then best1 else limitedGo threshold rest best1

/-- PDFTableExtractor._limited_extract with the method outcomes supplied by
the environment; the app processor uses confidence threshold 0.7. -/
def limitedExtract (outcomes : List (Except String MethodResult)) : MethodResult :=
  limitedGo 0.7 outcomes ⟨[], 0, none⟩

/-- The timing side condition of the primary loop: the clock is within the
budget at each checkpoint while the listed methods run. -/
def withinBudget (env : Env) (start : ℚ) (ms : List String) : Prop :=
  ∀ k ≤ ms.length, start + ((ms.take k).map env.dur).sum ≤ maxProcessingTime

/-- A fully populated single-row, two-column grid. -/
def singleRowGrid : Frame := ⟨2, [[Cell.str "a", Cell.str "b"]]⟩

/-- A small nonempty extracted grid used by the concrete environments. -/
def gridA : Frame := ⟨2, [[Cell.str "x", Cell.num 1], [Cell.str "y", Cell.num 2]]⟩

/-- A first page carrying 60 characters of text (not judged scanned). -/
def longPage : String := String.mk (List.replicate 60 'a')

/-- A first page carrying 21 pipe separators (structured-table heavy). -/
def pipesPage : String := String.mk (List.replicate 21 '|')

/-- A first page carrying 51 numeric tokens (numeric heavy). -/
def numsPage : String := String.mk ((List.replicate 51 ['1', ' ']).flatten)

/-- Concrete environment: the first method immediately clears the bar. -/
def envA : Env where
  validate := .ok true
  docRead := .ok [""]
  strat := fun m => if m = "pdfplumber" then .ok ([gridA], [0.9]) else .ok ([], [])
  dur := fun _ => 1
  preTime := 0
  fallback := {}
  fallbackDur := 0
  scanRead := .ok [longPage]
  ocr := .error "unused"
  ocrDur := 0

/-- Concrete environment: every strategy and the fallback produce nothing and
the document is judged scanned. -/
def envS : Env := { envA with strat := fun _ => .ok ([], []), scanRead := .ok [""] }

/-- Concrete environment: like envS but the OCR call returns one valid grid. -/
def envP : Env := { envS with ocr := .ok ⟨[⟨some gridA⟩], some "OCR"⟩ }

/-- Concrete environment: like envS but reading the PDF for the scanned test
raises internally. -/
def envX : Env := { envS with scanRead := .error "unreadable" }

/-- Concrete environment: the validator raises an unexpected internal fault. -/
def envBoom : Env := { envA with validate := .error "boom" }

/-- Concrete environment: every strategy call raises. -/
def envE : Env := { envA with strat := fun _ => .error "crash" }

/-- Concrete environment: the global budget is already exceeded before the
first strategy attempt. -/
def envT : Env := { envA with preTime := 31, strat := fun _ => .ok ([], []) }

/-- Concrete environment: the first method completes under the bar (mean
confidence 0.5) and the others produce nothing. -/
def envU : Env :=
  { envA with strat := fun m => if m = "pdfplumber" then .ok ([gridA], [0.5]) else .ok ([], []) }

/-- A loop state whose clock already exceeds the budget. -/
def stT : LoopState := ⟨{}, 31, [], false, false⟩

theorem ratFloor_nonneg (q : ℚ) (h : 0 ≤ q) : 0 ≤ Rat.floor q :=
  Rat.le_floor.mpr (by exact_mod_cast h)

theorem ratFloor_cast_le_self (q : ℚ) : (Rat.floor q : ℚ) ≤ q :=
  Rat.le_floor.mp (le_refl _)

theorem ratFloor_le (q : ℚ) (n : ℤ) (h : q ≤ n) : Rat.floor q ≤ n := by
  by_contra hc
  have h1 : n + 1 ≤ Rat.floor q := by omega
  have h2 : ((n + 1 : ℤ) : ℚ) ≤ q := Rat.le_floor.mp h1
  push_cast at h2
  linarith

theorem bankersRound_mem (q : ℚ) :
    bankersRound q = Rat.floor q ∨ bankersRound q = Rat.floor q + 1 := by
  unfold bankersRound
  split_ifs <;> simp

theorem bankersRound_nonneg (q : ℚ) (h : 0 ≤ q) : 0 ≤ bankersRound q := by
  have hf : 0 ≤ Rat.floor q := ratFloor_nonneg q h
  rcases bankersRound_mem q with h1 | h1 <;> omega

theorem bankersRound_le (q : ℚ) (n : ℤ) (h : q ≤ n) : bankersRound q ≤ n := by
  have hf : Rat.floor q ≤ n := ratFloor_le q n h
  have hstep : ¬(q - Rat.floor q < 1/2) → Rat.floor q + 1 ≤ n := by
    intro h1
    have h0 := not_lt.mp h1
    have h2 : (Rat.floor q : ℚ) < (n : ℚ) := by linarith
    have h3 : Rat.floor q < n := by exact_mod_cast h2
    omega
  unfold bankersRound
  split_ifs with h1 h2 h3
  · exact hf
  · exact hstep h1
  · exact hf
  · exact hstep h1

theorem round3_nonneg (q : ℚ) (h : 0 ≤ q) : 0 ≤ round3 q := by
  unfold round3
  apply div_nonneg _ (by norm_num)
  exact_mod_cast bankersRound_nonneg _ (mul_nonneg h (by norm_num))

theorem round3_le_one (q : ℚ) (h : q ≤ 1) : round3 q ≤ 1 := by
  unfold round3
  rw [div_le_one (by norm_num)]
  have h1 : bankersRound (q * 1000) ≤ (1000 : ℤ) := by
    apply bankersRound_le
    push_cast
    linarith
  exact_mod_cast h1

theorem completenessTerm_nonneg (df : Frame) : 0 ≤ completenessTerm df := by
  unfold completenessTerm
  positivity

theorem structureScoreTerm_nonneg (df : Frame) : 0 ≤ structureScoreTerm df := by
  unfold structureScoreTerm
  split_ifs <;> norm_num

theorem uniquenessTerm_nonneg (df : Frame) : 0 ≤ uniquenessTerm df := by
  unfold uniquenessTerm
  split_ifs
  · positivity
  · exact le_refl 0

theorem le_pymin {a b c : ℚ} (h1 : a ≤ b) (h2 : a ≤ c) : a ≤ pymin b c := by
  unfold pymin
  split_ifs <;> assumption

theorem pymin_le_right (a b : ℚ) : pymin a b ≤ b := by
  unfold pymin
  split_ifs with h
  · exact h
  · exact le_refl b

theorem varietyBonusTerm_nonneg (df : Frame) : 0 ≤ varietyBonusTerm df :=
  le_pymin (mul_nonneg (uniquenessTerm_nonneg df) (by norm_num)) (by norm_num)

theorem numericBonusTerm_nonneg (df : Frame) : 0 ≤ numericBonusTerm df := by
  unfold numericBonusTerm
  split_ifs
  · exact le_pymin (by positivity) (by norm_num)
  · exact le_refl 0

theorem headerBonusTerm_nonneg (df : Frame) : 0 ≤ headerBonusTerm df := by
  unfold headerBonusTerm
  rcases df.rows.head? with _ | r
  · exact le_refl 0
  · dsimp only
    split_ifs <;> norm_num

theorem alignmentBonusTerm_nonneg (df : Frame) : 0 ≤ alignmentBonusTerm df :=
  le_pymin (by positivity) (by norm_num)

/-- C2: for every grid, jagged or rectangular, with any cell contents, the
confidence scorer is a total function (totality is by construction in this
embedding, matching the except-all handler of the source whose 0.5 default
also lies in the interval) whose value lies in the closed interval [0, 1]. -/
theorem c2_confidence_total_in_unit_interval (df : Frame) :
    0 ≤ calculateConfidence df ∧ calculateConfidence df ≤ 1 := by
  unfold calculateConfidence
  split_ifs with h
  · norm_num
  · constructor
    · apply round3_nonneg
      apply le_pymin _ (by norm_num)
      have h1 : 0 ≤ completenessTerm df * 0.7 :=
        mul_nonneg (completenessTerm_nonneg df) (by norm_num)
      have h2 := structureScoreTerm_nonneg df
      have h3 := varietyBonusTerm_nonneg df
      have h4 := numericBonusTerm_nonneg df
      have h5 := headerBonusTerm_nonneg df
      have h6 := alignmentBonusTerm_nonneg df
      linarith
    · exact round3_le_one _ (pymin_le_right _ _)

/-- C8 counterexample: a single-row grid does not score 0.0 — the scorer
returns early only when the grid has zero cells, and a populated 1-by-2 grid
runs the weighted sum and scores 0.85. -/
theorem c8_counterexample :
    singleRowGrid.nrows = 1 ∧ calculateConfidence singleRowGrid = 0.85 ∧
      calculateConfidence singleRowGrid ≠ 0 := by
  refine ⟨rfl, by with_unfolding_all rfl, by with_unfolding_all decide⟩

/-- C8 (amended): every grid with zero cells (no data rows, or no columns —
in particular the frames of the raw grids [] and [[]]) scores exactly 0.0
immediately, without the weighted sum; a single-row grid with at least one
column is instead scored by the weighted sum. -/
theorem c8_zero_cells_score_zero (df : Frame) (h : df.nrows * df.ncols = 0) :
    calculateConfidence df = 0 := by
  unfold calculateConfidence
  rw [if_pos h]

/-- C8 witness: the frame of the raw grid [[]] (one row, zero columns) has
zero cells and scores 0. -/
theorem c8_witness :
    (⟨0, [[]]⟩ : Frame).nrows * (⟨0, [[]]⟩ : Frame).ncols = 0 ∧
      calculateConfidence ⟨0, [[]]⟩ = 0 :=
  ⟨by decide, c8_zero_cells_score_zero ⟨0, [[]]⟩ (by decide)⟩

theorem runLoopFrom_timeout (env : Env) (st : LoopState) (m : String) (rest : List String)
    (h : maxProcessingTime < st.elapsed) :
    runLoopFrom env st (m :: rest) =
      { st with res.errors := st.res.errors ++ [timeoutNote], timedOut := true } := by
  rw [runLoopFrom, if_pos h]

theorem runLoopFrom_error_head (env : Env) (st : LoopState) (m : String) (rest : List String)
    (e : String) (ht : ¬ maxProcessingTime < st.elapsed) (he : env.strat m = .error e) :
    runLoopFrom env st (m :: rest) =
      runLoopFrom env
        { st with
          invoked := st.invoked ++ [m]
          elapsed := st.elapsed + env.dur m
          res := { st.res with errors := st.res.errors ++ [m ++ ": " ++ e] } } rest := by
  rw [runLoopFrom, if_neg ht, he]

theorem runLoopFrom_clear_head (env : Env) (st : LoopState) (m : String) (rest : List String)
    (tables : List Frame) (confidence : List ℚ)
    (ht : ¬ maxProcessingTime < st.elapsed)
    (hm : env.strat m = .ok (tables, confidence))
    (htne : tables ≠ []) (hcne : confidence ≠ [])
    (havg : confidenceThreshold ≤ avgConf confidence) :
    runLoopFrom env st (m :: rest) =
      { st with
        invoked := st.invoked ++ [m]
        elapsed := st.elapsed + env.dur m
        res := { st.res with
          tables := tables
          confidence_scores := confidence
          extraction_method := m
          total_tables := tables.length }
        success := true } := by
  rw [runLoopFrom, if_neg ht, hm]
  dsimp only
  rw [if_pos ⟨htne, hcne⟩, if_pos havg]

theorem runLoopFrom_skip_head (env : Env) (st : LoopState) (m : String) (rest : List String)
    (tables : List Frame) (confidence : List ℚ)
    (ht : ¬ maxProcessingTime < st.elapsed)
    (hm : env.strat m = .ok (tables, confidence))
    (hskip : ¬(tables ≠ [] ∧ confidence ≠ []) ∨ ¬ confidenceThreshold ≤ avgConf confidence) :
    runLoopFrom env st (m :: rest) =
      runLoopFrom env
        { st with invoked := st.invoked ++ [m], elapsed := st.elapsed + env.dur m } rest := by
  rw [runLoopFrom, if_neg ht, hm]
  dsimp only
  rcases hskip with h | h
  · rw [if_neg h]
  · by_cases hc : tables ≠ [] ∧ confidence ≠ []
    · rw [if_pos hc, if_neg h]
    · rw [if_neg hc]

theorem withinBudget_head (env : Env) (start : ℚ) (p : String) (ms : List String)
    (h : withinBudget env start (p :: ms)) : ¬ maxProcessingTime < start := by
  have h0 := h 0 (by simp)
  simp only [List.take_zero, List.map_nil, List.sum_nil, add_zero] at h0
  exact not_lt.mpr h0

theorem withinBudget_tail (env : Env) (start : ℚ) (p : String) (ms : List String)
    (h : withinBudget env start (p :: ms)) :
    withinBudget env (start + env.dur p) ms := by
  intro k hk
  have h2 := h (k + 1) (by simpa using Nat.succ_le_succ hk)
  simp only [List.take_succ_cons, List.map_cons, List.sum_cons] at h2
  linarith

theorem runLoopFrom_first_clear (env : Env) (tables : List Frame) (confidence : List ℚ)
    (m : String) (post : List String)
    (hm : env.strat m = .ok (tables, confidence))
    (htne : tables ≠ []) (hcne : confidence ≠ [])
    (havg : confidenceThreshold ≤ avgConf confidence) :
    ∀ (pre : List String) (st : LoopState),
      (∀ x ∈ pre, clearsB env x = false) →
      withinBudget env st.elapsed pre →
      ¬ maxProcessingTime < st.elapsed + ((pre.map env.dur).sum) →
      (runLoopFrom env st (pre ++ m :: post)).res.tables = tables ∧
      (runLoopFrom env st (pre ++ m :: post)).res.confidence_scores = confidence ∧
      (runLoopFrom env st (pre ++ m :: post)).res.extraction_method = m ∧
      (runLoopFrom env st (pre ++ m :: post)).res.total_tables = tables.length ∧
      (runLoopFrom env st (pre ++ m :: post)).invoked = st.invoked ++ pre ++ [m] ∧
      (runLoopFrom env st (pre ++ m :: post)).success = true := by
  intro pre
  induction pre with
  | nil =>
    intro st _ _ hlast
    simp only [List.map_nil, List.sum_nil, add_zero] at hlast
    simp only [List.nil_append]
    rw [runLoopFrom_clear_head env st m post tables confidence hlast hm htne hcne havg]
    simp
  | cons p pre ih =>
    intro st hpre htime hlast
    have ht : ¬ maxProcessingTime < st.elapsed := withinBudget_head env st.elapsed p pre htime
    have hp : clearsB env p = false := hpre p (by simp)
    have htime2 : withinBudget env (st.elapsed + env.dur p) pre :=
      withinBudget_tail env st.elapsed p pre htime
    have hlast2 : ¬ maxProcessingTime < st.elapsed + env.dur p + (pre.map env.dur).sum := by
      simp only [List.map_cons, List.sum_cons] at hlast
      intro hcon
      exact hlast (by linarith)
    have hpre2 : ∀ x ∈ pre, clearsB env x = false := fun x hx => hpre x (by simp [hx])
    rw [List.cons_append]
    cases hs : env.strat p with
    | error e =>
      rw [runLoopFrom_error_head env st p (pre ++ m :: post) e ht hs]
      obtain ⟨h1, h2, h3, h4, h5, h6⟩ :=
        ih { st with
              invoked := st.invoked ++ [p]
              elapsed := st.elapsed + env.dur p
              res := { st.res with errors := st.res.errors ++ [p ++ ": " ++ e] } }
          hpre2 htime2 hlast2
      refine ⟨h1, h2, h3, h4, ?_, h6⟩
      rw [h5]
      simp
    | ok tc =>
      obtain ⟨t, c⟩ := tc
      have hskip : ¬(t ≠ [] ∧ c ≠ []) ∨ ¬ confidenceThreshold ≤ avgConf c := by
        rw [clearsB, hs] at hp
        simp only [Bool.and_eq_false_iff] at hp
        rcases hp with hp | hp
        · rcases hp with hp | hp
          · left
            intro hcon
            simp [List.isEmpty_iff] at hp
            exact hcon.1 hp
          · left
            intro hcon
            simp [List.isEmpty_iff] at hp
            exact hcon.2 hp
        · right
          simpa using hp
      rw [runLoopFrom_skip_head env st p (pre ++ m :: post) t c ht hs hskip]
      obtain ⟨h1, h2, h3, h4, h5, h6⟩ :=
        ih { st with invoked := st.invoked ++ [p], elapsed := st.elapsed + env.dur p }
          hpre2 htime2 hlast2
      refine ⟨h1, h2, h3, h4, ?_, h6⟩
      rw [h5]
      simp

theorem postLoop_success (env : Env) (tier : String) (st : LoopState)
    (h : st.res.tables ≠ []) :
    postLoop env tier st =
      ({ st.res with processing_time := st.elapsed }, ⟨st.invoked, false, false⟩) := by
  unfold postLoop
  dsimp only
  rw [if_pos h]

/-- C1: in the primary strategy ordering, the first strategy whose produced
grids have mean confidence at least the 0.6 threshold is adopted as the
winning result — its grids, scores and method name recorded in the returned
aggregate — and no strategy after it is invoked (the invocation trace stops
at it, and neither the fallback pass nor OCR runs). -/
theorem c1_first_clearing_strategy_wins (env : Env) (tier : String)
    (pre post : List String) (m : String) (tables : List Frame) (confidence : List ℚ)
    (hv : env.validate = .ok true)
    (hsplit : methodsToTry env = pre ++ m :: post)
    (hpre : ∀ x ∈ pre, clearsB env x = false)
    (htime : withinBudget env env.preTime pre)
    (hm : env.strat m = .ok (tables, confidence))
    (htne : tables ≠ []) (hcne : confidence ≠ [])
    (havg : confidenceThreshold ≤ avgConf confidence) :
    ∃ res tr, extractTables env tier = .ok (res, tr) ∧
      res.tables = tables ∧ res.confidence_scores = confidence ∧
      res.extraction_method = m ∧ res.total_tables = tables.length ∧
      tr.invoked = pre ++ [m] ∧ tr.fallbackInvoked = false ∧ tr.ocrInvoked = false := by
  have hlast : ¬ maxProcessingTime < env.preTime + ((pre.map env.dur).sum) := by
    have h0 := htime pre.length (le_refl _)
    rw [List.take_length] at h0
    exact not_lt.mpr h0
  obtain ⟨h1, h2, h3, h4, h5, h6⟩ :=
    runLoopFrom_first_clear env tables confidence m post hm htne hcne havg pre
      (initState env) hpre htime hlast
  have htab : (runLoopFrom env (initState env) (pre ++ m :: post)).res.tables ≠ [] := by
    rw [h1]
    exact htne
  refine ⟨{ (runLoopFrom env (initState env) (pre ++ m :: post)).res with
      processing_time := (runLoopFrom env (initState env) (pre ++ m :: post)).elapsed },
    ⟨(runLoopFrom env (initState env) (pre ++ m :: post)).invoked, false, false⟩,
    ?_, h1, h2, h3, h4, ?_, rfl, rfl⟩
  · unfold extractTables
    rw [hv]
    dsimp only
    rw [hsplit]
    rw [postLoop_success env tier _ htab]
  · rw [h5]
    simp [initState]

/-- C1 witness: in envA the selected first method (pdfplumber) clears the bar
at once, its grids and scores are adopted, and camelot and tabula are never
invoked. -/
theorem c1_witness :
    ∃ res tr, extractTables envA "free" = .ok (res, tr) ∧
      res.tables = [gridA] ∧ res.confidence_scores = [0.9] ∧
      res.extraction_method = "pdfplumber" ∧ res.total_tables = [gridA].length ∧
      tr.invoked = [] ++ ["pdfplumber"] ∧ tr.fallbackInvoked = false ∧
      tr.ocrInvoked = false :=
  c1_first_clearing_strategy_wins envA "free" [] ["camelot", "tabula"] "pdfplumber"
    [gridA] [0.9]
    (by with_unfolding_all rfl)
    (by with_unfolding_all rfl)
    (by simp)
    (by
      intro k hk
      simp only [List.take_nil, List.map_nil, List.sum_nil, add_zero]
      with_unfolding_all decide)
    (by with_unfolding_all rfl)
    (by simp)
    (by simp)
    (by with_unfolding_all decide)

/-- C3 counterexample: an unexpected internal fault (the validator raising)
does not propagate to the caller — the outer except-all converts it into an
"Extraction failed" note and the call still returns a normal aggregate. -/
theorem c3_counterexample :
    extractTables envBoom "free" =
      .ok ({ errors := ["Extraction failed: boom"] }, ⟨[], false, false⟩) := by
  with_unfolding_all rfl

/-- C3 (amended): for every environment and privilege tier the orchestration
entry point returns a ResultAggregate and never raises: per-strategy failures
are caught in the loop, appended as "method: message" warnings, and the
cascade continues with the next strategy; timeout, disallowed OCR and
no-tables cases likewise only add notes; and even unexpected internal faults
are caught by the outer handler and recorded as an "Extraction failed" note
instead of propagating to the caller. -/
theorem c3_orchestrator_never_raises :
    (∀ (env : Env) (tier : String), ∃ p, extractTables env tier = .ok p) ∧
    (∀ (env : Env) (st : LoopState) (m : String) (rest : List String) (e : String),
      ¬ maxProcessingTime < st.elapsed → env.strat m = .error e →
      runLoopFrom env st (m :: rest) =
        runLoopFrom env
          { st with
            invoked := st.invoked ++ [m]
            elapsed := st.elapsed + env.dur m
            res := { st.res with errors := st.res.errors ++ [m ++ ": " ++ e] } } rest) := by
  constructor
  · intro env tier
    exact ⟨_, rfl⟩
  · intro env st m rest e ht he
    exact runLoopFrom_error_head env st m rest e ht he

/-- C3 witness: the faulting-validator environment still returns ok, and in a
concrete environment whose strategy raises, the loop records the warning and
moves on to the remaining methods. -/
theorem c3_witness :
    (∃ p, extractTables envBoom "free" = .ok p) ∧
    runLoopFrom envE (initState envE) ["pdfplumber"] =
      runLoopFrom envE
        { initState envE with
          invoked := (initState envE).invoked ++ ["pdfplumber"]
          elapsed := (initState envE).elapsed + envE.dur "pdfplumber"
          res := { (initState envE).res with
            errors := (initState envE).res.errors ++ ["pdfplumber" ++ ": " ++ "crash"] } } [] :=
  ⟨c3_orchestrator_never_raises.1 envBoom "free",
   c3_orchestrator_never_raises.2 envE (initState envE) "pdfplumber" [] "crash"
     (by with_unfolding_all decide) (by with_unfolding_all rfl)⟩

theorem clearsB_false_skip (env : Env) (m : String) (t : List Frame) (c : List ℚ)
    (hs : env.strat m = .ok (t, c)) (hm : clearsB env m = false) :
    ¬(t ≠ [] ∧ c ≠ []) ∨ ¬ confidenceThreshold ≤ avgConf c := by
  rw [clearsB, hs] at hm
  by_cases hc : t ≠ [] ∧ c ≠ []
  · right
    intro havg
    simp [List.isEmpty_iff, hc.1, hc.2, havg] at hm
  · left
    exact hc

theorem runLoopFrom_tables_of_no_clear (env : Env) :
    ∀ (ms : List String) (st : LoopState), (∀ x ∈ ms, clearsB env x = false) →
      (runLoopFrom env st ms).res.tables = st.res.tables := by
  intro ms
  induction ms with
  | nil =>
    intro st _
    rfl
  | cons m rest ih =>
    intro st h
    by_cases ht : maxProcessingTime < st.elapsed
    · rw [runLoopFrom_timeout env st m rest ht]
    · cases hs : env.strat m with
      | error e =>
        rw [runLoopFrom_error_head env st m rest e ht hs]
        exact ih _ (fun x hx => h x (by simp [hx]))
      | ok tc =>
        obtain ⟨t, c⟩ := tc
        have hskip := clearsB_false_skip env m t c hs (h m (by simp))
        rw [runLoopFrom_skip_head env st m rest t c ht hs hskip]
        exact ih _ (fun x hx => h x (by simp [hx]))

theorem finishNoTables_empty (res : TableExtractionResult) (h : res.tables = []) :
    finishNoTables res = { res with errors := res.errors ++ [noTablesNote] } := by
  unfold finishNoTables
  rw [if_pos h]

theorem postLoop_free_scanned (env : Env) (st : LoopState)
    (h1 : st.res.tables = []) (h2 : env.fallback.tables = [])
    (h3 : isScannedPdf env.scanRead = true) :
    postLoop env "free" st =
      ({ st.res with
          processing_time := st.elapsed
          errors := (st.res.errors ++ [upsellNote]) ++ [noTablesNote] },
        ⟨st.invoked, true, false⟩) := by
  unfold postLoop
  dsimp only
  rw [if_neg (by simp [h1]), if_neg (by simp [h2]), if_neg (by simp), if_pos h3]
  rw [finishNoTables_empty _ (by simp [h1])]

theorem postLoop_ocr_accepted (env : Env) (tier : String) (st : LoopState)
    (ocrResult : OcrResult)
    (hti : tier ≠ "free")
    (h1 : st.res.tables = []) (h2 : env.fallback.tables = [])
    (h3 : isScannedPdf env.scanRead = true)
    (ho : env.ocr = .ok ocrResult)
    (hne : ocrResult.tables ≠ []) (hacc : acceptedGrids ocrResult ≠ []) :
    postLoop env tier st =
      ({ st.res with
          tables := acceptedGrids ocrResult
          confidence_scores := (acceptedGrids ocrResult).map (fun _ => (0.7 : ℚ))
          extraction_method := "OCR_" ++ ocrResult.processing_method.getD "tesseract"
          total_tables := (acceptedGrids ocrResult).length
          processing_time := st.elapsed + env.fallbackDur + env.ocrDur },
        ⟨st.invoked, true, true⟩) := by
  unfold postLoop
  dsimp only
  rw [if_neg (by simp [h1]), if_neg (by simp [h2]), if_pos hti, if_pos h3, ho]
  dsimp only
  rw [if_pos hne, if_pos hacc]

theorem postLoop_paid_scanned_ocrInvoked (env : Env) (tier : String) (st : LoopState)
    (hti : tier ≠ "free")
    (h1 : st.res.tables = []) (h2 : env.fallback.tables = [])
    (h3 : isScannedPdf env.scanRead = true) :
    (postLoop env tier st).2.ocrInvoked = true := by
  unfold postLoop
  dsimp only
  rw [if_neg (by simp [h1]), if_neg (by simp [h2]), if_pos hti, if_pos h3]
  cases env.ocr with
  | error e => rfl
  | ok ocrResult =>
    dsimp only
    split_ifs <;> rfl

theorem postLoop_empty_keeps_errors (env : Env) (tier : String) (st : LoopState)
    (h1 : st.res.tables = []) (h2 : env.fallback.tables = []) :
    (∃ tail, (postLoop env tier st).1.errors = st.res.errors ++ tail) ∧
    (postLoop env tier st).2.fallbackInvoked = true ∧
    (postLoop env tier st).2.invoked = st.invoked := by
  unfold postLoop
  dsimp only
  rw [if_neg (by simp [h1]), if_neg (by simp [h2])]
  by_cases hti : tier ≠ "free"
  · rw [if_pos hti]
    by_cases hsc : isScannedPdf env.scanRead
    · rw [if_pos hsc]
      cases env.ocr with
      | error e =>
        exact ⟨⟨["OCR processing failed: " ++ e] ++ [noTablesNote],
          by simp [finishNoTables, h1]⟩, rfl, rfl⟩
      | ok ocrResult =>
        dsimp only
        by_cases hne : ocrResult.tables ≠ []
        · rw [if_pos hne]
          by_cases hacc : acceptedGrids ocrResult ≠ []
          · rw [if_pos hacc]
            exact ⟨⟨[], by simp⟩, rfl, rfl⟩
          · rw [if_neg hacc]
            exact ⟨⟨[noTablesNote], by simp [finishNoTables, h1]⟩, rfl, rfl⟩
        · rw [if_neg hne]
          exact ⟨⟨[noTablesNote], by simp [finishNoTables, h1]⟩, rfl, rfl⟩
    · rw [if_neg hsc]
      exact ⟨⟨[noTablesNote], by simp [finishNoTables, h1]⟩, rfl, rfl⟩
  · rw [if_neg hti]
    by_cases hsc : isScannedPdf env.scanRead
    · rw [if_pos hsc]
      exact ⟨⟨[upsellNote] ++ [noTablesNote], by simp [finishNoTables, h1]⟩, rfl, rfl⟩
    · rw [if_neg hsc]
      exact ⟨⟨[noTablesNote], by simp [finishNoTables, h1]⟩, rfl, rfl⟩

/-- C4: when every primary strategy fails to clear the bar, the fallback pass
produces nothing, the caller is free tier and the document is judged scanned,
the returned aggregate carries the explicit upsell note — distinct from the
generic no-tables note, which is also appended — and the OCR extraction
operation is never invoked. -/
theorem c4_free_scanned_upsell (env : Env)
    (hv : env.validate = .ok true)
    (hnc : ∀ x ∈ methodsToTry env, clearsB env x = false)
    (hfb : env.fallback.tables = [])
    (hsc : isScannedPdf env.scanRead = true) :
    ∃ res tr, extractTables env "free" = .ok (res, tr) ∧
      upsellNote ∈ res.errors ∧ noTablesNote ∈ res.errors ∧
      upsellNote ≠ noTablesNote ∧ tr.ocrInvoked = false := by
  have htab : (runLoopFrom env (initState env) (methodsToTry env)).res.tables = [] :=
    runLoopFrom_tables_of_no_clear env (methodsToTry env) (initState env) hnc
  have hex : extractTables env "free" =
      .ok (postLoop env "free" (runLoopFrom env (initState env) (methodsToTry env))) := by
    unfold extractTables
    rw [hv]
  have hpost :=
    postLoop_free_scanned env (runLoopFrom env (initState env) (methodsToTry env)) htab hfb hsc
  have hfull : extractTables env "free" = .ok
      ({ (runLoopFrom env (initState env) (methodsToTry env)).res with
          processing_time := (runLoopFrom env (initState env) (methodsToTry env)).elapsed
          errors := ((runLoopFrom env (initState env) (methodsToTry env)).res.errors ++
            [upsellNote]) ++ [noTablesNote] },
        ⟨(runLoopFrom env (initState env) (methodsToTry env)).invoked, true, false⟩) := by
    rw [hex, hpost]
  exact ⟨_, _, hfull, by simp, by simp, by with_unfolding_all decide, rfl⟩

/-- C4 witness: concrete environment with all strategies empty, an empty
fallback, a scanned document and a free-tier caller. -/
theorem c4_witness :
    ∃ res tr, extractTables envS "free" = .ok (res, tr) ∧
      upsellNote ∈ res.errors ∧ noTablesNote ∈ res.errors ∧
      upsellNote ≠ noTablesNote ∧ tr.ocrInvoked = false :=
  c4_free_scanned_upsell envS (by with_unfolding_all rfl)
    (by with_unfolding_all decide) (by with_unfolding_all rfl)
    (by with_unfolding_all decide)

/-- C5: when the OCR path runs — all primary strategies under the bar, empty
fallback, paid tier, document judged scanned — and OCR returns at least one
accepted (present and non-empty) grid, every accepted grid is assigned the
fixed conservative confidence 0.7 (independent of its contents, not the
common scorer), and the chosen method name is "OCR_" plus the processing
method. -/
theorem c5_ocr_fixed_confidence (env : Env) (tier : String) (ocrResult : OcrResult)
    (hti : tier ≠ "free")
    (hv : env.validate = .ok true)
    (hnc : ∀ x ∈ methodsToTry env, clearsB env x = false)
    (hfb : env.fallback.tables = [])
    (hsc : isScannedPdf env.scanRead = true)
    (ho : env.ocr = .ok ocrResult)
    (hne : ocrResult.tables ≠ [])
    (hacc : acceptedGrids ocrResult ≠ []) :
    ∃ res tr, extractTables env tier = .ok (res, tr) ∧
      res.tables = acceptedGrids ocrResult ∧
      res.confidence_scores = (acceptedGrids ocrResult).map (fun _ => (0.7 : ℚ)) ∧
      res.extraction_method = "OCR_" ++ ocrResult.processing_method.getD "tesseract" ∧
      res.total_tables = (acceptedGrids ocrResult).length ∧
      tr.ocrInvoked = true := by
  have htab : (runLoopFrom env (initState env) (methodsToTry env)).res.tables = [] :=
    runLoopFrom_tables_of_no_clear env (methodsToTry env) (initState env) hnc
  have hex : extractTables env tier =
      .ok (postLoop env tier (runLoopFrom env (initState env) (methodsToTry env))) := by
    unfold extractTables
    rw [hv]
  have hpost := postLoop_ocr_accepted env tier
    (runLoopFrom env (initState env) (methodsToTry env)) ocrResult hti htab hfb hsc ho hne hacc
  have hfull : extractTables env tier = .ok
      ({ (runLoopFrom env (initState env) (methodsToTry env)).res with
          tables := acceptedGrids ocrResult
          confidence_scores := (acceptedGrids ocrResult).map (fun _ => (0.7 : ℚ))
          extraction_method := "OCR_" ++ ocrResult.processing_method.getD "tesseract"
          total_tables := (acceptedGrids ocrResult).length
          processing_time := (runLoopFrom env (initState env) (methodsToTry env)).elapsed +
            env.fallbackDur + env.ocrDur },
        ⟨(runLoopFrom env (initState env) (methodsToTry env)).invoked, true, true⟩) := by
    rw [hex, hpost]
  exact ⟨_, _, hfull, rfl, rfl, rfl, rfl, rfl⟩

/-- C5 witness: concrete paid-tier environment whose OCR call returns one
valid grid; the result carries that grid at fixed confidence 0.7 with an
OCR-prefixed method name. -/
theorem c5_witness :
    ∃ res tr, extractTables envP "pro" = .ok (res, tr) ∧
      res.tables = acceptedGrids ⟨[⟨some gridA⟩], some "OCR"⟩ ∧
      res.confidence_scores =
        (acceptedGrids ⟨[⟨some gridA⟩], some "OCR"⟩).map (fun _ => (0.7 : ℚ)) ∧
      res.extraction_method =
        "OCR_" ++ (⟨[⟨some gridA⟩], some "OCR"⟩ : OcrResult).processing_method.getD "tesseract" ∧
      res.total_tables = (acceptedGrids ⟨[⟨some gridA⟩], some "OCR"⟩).length ∧
      tr.ocrInvoked = true :=
  c5_ocr_fixed_confidence envP "pro" ⟨[⟨some gridA⟩], some "OCR"⟩
    (by with_unfolding_all decide) (by with_unfolding_all rfl)
    (by with_unfolding_all decide) (by with_unfolding_all rfl)
    (by with_unfolding_all decide) (by with_unfolding_all rfl)
    (by simp) (by with_unfolding_all decide)

/-- C10: if reading the PDF inside is_scanned_pdf raises internally, the test
returns true (the document is treated as scanned) instead of raising;
consequently, for an unreadable document where no strategy or fallback
produced tables, a free-tier caller still receives the upsell note and a
paid-tier caller still triggers the OCR attempt. -/
theorem c10_scan_error_defaults_to_scanned :
    (∀ e : String, isScannedPdf (.error e) = true) ∧
    (∀ (env : Env) (msg : String),
      env.validate = .ok true →
      (∀ x ∈ methodsToTry env, clearsB env x = false) →
      env.fallback.tables = [] →
      env.scanRead = .error msg →
      (∃ res tr, extractTables env "free" = .ok (res, tr) ∧ upsellNote ∈ res.errors) ∧
      (∀ tier, tier ≠ "free" →
        ∃ res tr, extractTables env tier = .ok (res, tr) ∧ tr.ocrInvoked = true)) := by
  constructor
  · intro e
    rfl
  · intro env msg hv hnc hfb hscan
    have hsc : isScannedPdf env.scanRead = true := by
      rw [hscan]
      rfl
    have htab : (runLoopFrom env (initState env) (methodsToTry env)).res.tables = [] :=
      runLoopFrom_tables_of_no_clear env (methodsToTry env) (initState env) hnc
    constructor
    · have hex : extractTables env "free" =
          .ok (postLoop env "free" (runLoopFrom env (initState env) (methodsToTry env))) := by
        unfold extractTables
        rw [hv]
      have hpost :=
        postLoop_free_scanned env (runLoopFrom env (initState env) (methodsToTry env)) htab hfb hsc
      have hfull : extractTables env "free" = .ok
          ({ (runLoopFrom env (initState env) (methodsToTry env)).res with
              processing_time := (runLoopFrom env (initState env) (methodsToTry env)).elapsed
              errors := ((runLoopFrom env (initState env) (methodsToTry env)).res.errors ++
                [upsellNote]) ++ [noTablesNote] },
            ⟨(runLoopFrom env (initState env) (methodsToTry env)).invoked, true, false⟩) := by
        rw [hex, hpost]
      exact ⟨_, _, hfull, by simp⟩
    · intro tier hti
      have hex : extractTables env tier =
          .ok (postLoop env tier (runLoopFrom env (initState env) (methodsToTry env))) := by
        unfold extractTables
        rw [hv]
      refine ⟨(postLoop env tier (runLoopFrom env (initState env) (methodsToTry env))).1,
        (postLoop env tier (runLoopFrom env (initState env) (methodsToTry env))).2, hex, ?_⟩
      exact postLoop_paid_scanned_ocrInvoked env tier _ hti htab hfb hsc

/-- C10 witness: a concrete environment whose scanned-test read raises; the
test returns true, the free tier gets the upsell note, and the paid tier
reaches the OCR call. -/
theorem c10_witness :
    isScannedPdf (.error "unreadable") = true ∧
    (∃ res tr, extractTables envX "free" = .ok (res, tr) ∧ upsellNote ∈ res.errors) ∧
    (∃ res tr, extractTables envX "pro" = .ok (res, tr) ∧ tr.ocrInvoked = true) := by
  have h := c10_scan_error_defaults_to_scanned.2 envX "unreadable"
    (by with_unfolding_all rfl) (by with_unfolding_all decide)
    (by with_unfolding_all rfl) (by with_unfolding_all rfl)
  exact ⟨c10_scan_error_defaults_to_scanned.1 "unreadable", h.1,
    h.2 "pro" (by with_unfolding_all decide)⟩

/-- C6 counterexample: with the wall-clock budget already exceeded at the
first checkpoint, the loop aborts with the timeout note and no strategy is
invoked — yet the fallback pass is still attempted (fallbackInvoked = true):
the cascade as a whole does not halt at the timeout. -/
theorem c6_counterexample :
    extractTables envT "free" =
      .ok ({ errors := [timeoutNote, noTablesNote], processing_time := 31 },
        ⟨[], true, false⟩) := by
  with_unfolding_all rfl

/-- C6 (amended): the wall-clock budget, measured from the start of the whole
extraction, is checked at the top of each strategy iteration; once strictly
exceeded, the primary strategy loop aborts immediately, recording the timeout
note and invoking no further primary strategy, and the orchestration returns
a normal aggregate carrying the note — but the fallback pass is still
attempted afterwards (the cascade as a whole does not halt); a strategy that
had already cleared the bar has returned its success before any timeout note
could be recorded. -/
theorem c6_timeout_aborts_loop_not_cascade :
    (∀ (env : Env) (st : LoopState) (m : String) (rest : List String),
      maxProcessingTime < st.elapsed →
      runLoopFrom env st (m :: rest) =
        { st with res.errors := st.res.errors ++ [timeoutNote], timedOut := true }) ∧
    (∀ (env : Env) (tier : String),
      env.validate = .ok true → maxProcessingTime < env.preTime →
      env.fallback.tables = [] →
      ∃ res tr, extractTables env tier = .ok (res, tr) ∧
        timeoutNote ∈ res.errors ∧ tr.invoked = [] ∧ tr.fallbackInvoked = true) := by
  constructor
  · exact runLoopFrom_timeout
  · intro env tier hv ht hfb
    set st2 : LoopState :=
      { initState env with
        res := { (initState env).res with
          errors := (initState env).res.errors ++ [timeoutNote] }
        timedOut := true } with hst2
    have hloop : runLoopFrom env (initState env) (methodsToTry env) = st2 := by
      rw [methodsToTry, hst2]
      exact runLoopFrom_timeout env (initState env) _ _ ht
    obtain ⟨⟨tail, htail⟩, hfbI, hinv⟩ := postLoop_empty_keeps_errors env tier st2 rfl hfb
    have hex : extractTables env tier = .ok (postLoop env tier st2) := by
      unfold extractTables
      rw [hv]
      dsimp only
      rw [hloop]
    refine ⟨(postLoop env tier st2).1, (postLoop env tier st2).2, ?_, ?_, ?_, hfbI⟩
    · rw [hex]
    · rw [htail]
      simp [hst2, initState]
    · rw [hinv]
      simp [hst2, initState]

/-- C6 witness: the timeout step at a concrete over-budget state, and the
full run on a concrete over-budget environment returning the timeout warning
with no strategy invoked while the fallback is still attempted. -/
theorem c6_witness :
    runLoopFrom envT stT ["pdfplumber"] =
      { stT with res.errors := stT.res.errors ++ [timeoutNote], timedOut := true } ∧
    (∃ res tr, extractTables envT "pro" = .ok (res, tr) ∧
      timeoutNote ∈ res.errors ∧ tr.invoked = [] ∧ tr.fallbackInvoked = true) := by
  constructor
  · exact c6_timeout_aborts_loop_not_cascade.1 envT stT "pdfplumber" []
      (by with_unfolding_all decide)
  · exact c6_timeout_aborts_loop_not_cascade.2 envT "pro" (by with_unfolding_all rfl)
      (by with_unfolding_all decide) (by with_unfolding_all rfl)

/-- C7 counterexample: in the core orchestrator a strategy that completes
under the bar (mean confidence 0.5) is not remembered: the final aggregate
has no tables and carries the generic no-tables note, the under-bar grids
having been discarded while iteration continued through all methods. -/
theorem c7_counterexample :
    envU.strat "pdfplumber" = .ok ([gridA], [0.5]) ∧
    extractTables envU "free" =
      .ok ({ errors := [noTablesNote], processing_time := 3 },
        ⟨["pdfplumber", "camelot", "tabula"], true, false⟩) := by
  constructor
  · with_unfolding_all rfl
  · with_unfolding_all rfl

/-- C7 (amended): in the core orchestrator's primary loop an under-bar
strategy result is discarded — the state carries over unchanged except for
the clock and the invocation record, and iteration continues; the
remember-the-best behavior lives in the alternative processor's
_limited_extract, whose loop keeps a strictly better under-threshold result
as the best seen so far and keeps iterating. -/
theorem c7_under_bar_best_retention :
    (∀ (env : Env) (st : LoopState) (m : String) (rest : List String)
        (t : List Frame) (c : List ℚ),
      ¬ maxProcessingTime < st.elapsed → env.strat m = .ok (t, c) →
      t ≠ [] → c ≠ [] → avgConf c < confidenceThreshold →
      runLoopFrom env st (m :: rest) =
        runLoopFrom env
          { st with invoked := st.invoked ++ [m], elapsed := st.elapsed + env.dur m } rest) ∧
    (∀ (rest : List (Except String MethodResult)) (best r : MethodResult),
      best.confidence < r.confidence → r.confidence < 0.7 →
      limitedGo 0.7 (.ok r :: rest) best = limitedGo 0.7 rest r) := by
  constructor
  · intro env st m rest t c ht hm _ _ hlt
    exact runLoopFrom_skip_head env st m rest t c ht hm (Or.inr (not_le.mpr hlt))
  · intro rest best r hbr hthr
    rw [limitedGo]
    rw [if_pos hbr, if_neg (not_le.mpr hthr)]

/-- C7 witness: the under-bar first method of envU is skipped with only the
clock and invocation record advanced, and in the alternative processor a
strictly better under-threshold result replaces the best seen so far while
the loop continues. -/
theorem c7_witness :
    runLoopFrom envU (initState envU) ["pdfplumber"] =
      runLoopFrom envU
        { initState envU with
          invoked := (initState envU).invoked ++ ["pdfplumber"]
          elapsed := (initState envU).elapsed + envU.dur "pdfplumber" } [] ∧
    limitedGo 0.7 [.ok ⟨[], 0.5, some "pdfplumber"⟩] ⟨[], 0, none⟩ =
      limitedGo 0.7 [] ⟨[], 0.5, some "pdfplumber"⟩ := by
  constructor
  · exact c7_under_bar_best_retention.1 envU (initState envU) "pdfplumber" [] [gridA] [0.5]
      (by with_unfolding_all decide) (by with_unfolding_all rfl) (by simp) (by simp)
      (by with_unfolding_all decide)
  · exact c7_under_bar_best_retention.2 [] ⟨[], 0, none⟩ ⟨[], 0.5, some "pdfplumber"⟩
      (by with_unfolding_all decide) (by with_unfolding_all decide)

/-- C9: the method selector inspects only the first page: on any internal
error it returns the fixed default pdfplumber rather than failing the
extraction; an empty document also yields pdfplumber; the result depends only
on the first page text; when the count of tab and pipe separator characters
exceeds 20 it returns camelot (the bordered/structured-table strategy);
otherwise when the count of numeric/currency tokens exceeds 50 it returns
tabula (the dense-numeric strategy); otherwise the general-purpose default
pdfplumber. -/
theorem c9_selector_branches :
    (∀ e : String, selectOptimalMethod (.error e) = "pdfplumber") ∧
    selectOptimalMethod (.ok []) = "pdfplumber" ∧
    (∀ (p : String) (r1 r2 : List String),
      selectOptimalMethod (.ok (p :: r1)) = selectOptimalMethod (.ok (p :: r2))) ∧
    (∀ (p : String) (r : List String),
      20 < countOcc p '\t' + countOcc p '|' →
      selectOptimalMethod (.ok (p :: r)) = "camelot") ∧
    (∀ (p : String) (r : List String),
      countOcc p '\t' + countOcc p '|' ≤ 20 → 50 < countNums p →
      selectOptimalMethod (.ok (p :: r)) = "tabula") ∧
    (∀ (p : String) (r : List String),
      countOcc p '\t' + countOcc p '|' ≤ 20 → countNums p ≤ 50 →
      selectOptimalMethod (.ok (p :: r)) = "pdfplumber") := by
  refine ⟨fun e => rfl, rfl, fun p r1 r2 => rfl, ?_, ?_, ?_⟩
  · intro p r h
    unfold selectOptimalMethod
    dsimp only
    rw [if_pos h]
  · intro p r h1 h2
    unfold selectOptimalMethod
    dsimp only
    rw [if_neg (not_lt.mpr h1), if_pos h2]
  · intro p r h1 h2
    unfold selectOptimalMethod
    dsimp only
    rw [if_neg (not_lt.mpr h1), if_neg (not_lt.mpr h2)]

/-- C9 witness: concrete first pages exercising each branch — an internal
error, a separator-heavy page, a numeric-heavy page, and a plain page. -/
theorem c9_witness :
    selectOptimalMethod (.error "boom") = "pdfplumber" ∧
    (20 < countOcc pipesPage '\t' + countOcc pipesPage '|' ∧
      selectOptimalMethod (.ok [pipesPage]) = "camelot") ∧
    (countOcc numsPage '\t' + countOcc numsPage '|' ≤ 20 ∧ 50 < countNums numsPage ∧
      selectOptimalMethod (.ok [numsPage]) = "tabula") ∧
    (countOcc longPage '\t' + countOcc longPage '|' ≤ 20 ∧ countNums longPage ≤ 50 ∧
      selectOptimalMethod (.ok [longPage]) = "pdfplumber") := by
  have hp : 20 < countOcc pipesPage '\t' + countOcc pipesPage '|' := by
    with_unfolding_all decide
  have hn1 : countOcc numsPage '\t' + countOcc numsPage '|' ≤ 20 := by
    with_unfolding_all decide
  have hn2 : 50 < countNums numsPage := by
    with_unfolding_all decide
  have hl1 : countOcc longPage '\t' + countOcc longPage '|' ≤ 20 := by
    with_unfolding_all decide
  have hl2 : countNums longPage ≤ 50 := by
    with_unfolding_all decide
  exact ⟨c9_selector_branches.1 "boom",
    ⟨hp, c9_selector_branches.2.2.2.1 pipesPage [] hp⟩,
    ⟨hn1, hn2, c9_selector_branches.2.2.2.2.1 numsPage [] hn1 hn2⟩,
    ⟨hl1, hl2, c9_selector_branches.2.2.2.2.2 longPage [] hl1 hl2⟩⟩
